import Mathlib

/-!
Verification development for the `stabilized_intrinsics` clippy lint
(`src/clippy_lints/src/stabilized_intrinsics.rs`).

The lint walks call expressions: when the callee of a call is a resolved
path that designates an intrinsic listed in `STABILIZED_INTRINSIC_NAMES`,
it emits one style diagnostic on the span of the call, naming the
stabilized replacement.

We shallowly embed the HIR fragment the lint inspects (call expressions,
path expressions, qualified paths), transcribe the replacement table
verbatim, and translate `check_expr`.  The helpers `match_path` and
`span_lint` live in clippy utils, outside the sources at hand; they are
modelled from the specification, as marked on their doc comments.
-/

/-- A qualified path as inspected by the lint: either resolved (with an
optional self type, which the lint ignores, and the list of path-segment
names) or a type-relative path, which the lint does not handle. -/
inductive QPath : Type where
  | resolved (selfTy : Option Unit) (segments : List String)
  | typeRelative
deriving Repr

/-- The fragment of HIR expressions the lint distinguishes.  Each node
carries its source span, modelled as a natural number tag.  `call` keeps
the callee and the argument list (the lint never looks at the arguments);
`path` is a path expression; `other` stands for every remaining
expression form. -/
inductive Expr : Type where
  | call (callee : Expr) (args : List Expr) (span : Nat)
  | path (qpath : QPath) (span : Nat)
  | other (span : Nat)
deriving Repr

/-- The span of an expression. -/
def Expr.span : Expr → Nat
  | .call _ _ s => s
  | .path _ s => s
  | .other s => s

/-- A lint declaration: name and category, from `declare_clippy_lint!`. -/
structure Lint where
  name : String
  category : String
deriving Repr, DecidableEq

/-- The `STABILIZED_INTRINSICS` lint, declared in the `style` category. -/
def STABILIZED_INTRINSICS : Lint :=
  { name := "stabilized_intrinsics", category := "style" }

/-- A diagnostic record handed to the reporting sink: the span it is
bound to, its severity category, and its message text. -/
structure Diagnostic where
  span : Nat
  severity : String
  message : String
deriving Repr, DecidableEq

/-- Modelled from the spec: `span_lint` (clippy utils, not among the
sources at hand) reports one record `(span, severity, message)` where the
severity is the fixed category of the lint being emitted. -/
def span_lint (lint : Lint) (span : Nat) (msg : String) : Diagnostic :=
  { span := span, severity := lint.category, message := msg }

/-- Modelled from the spec: `match_path` (clippy utils, not among the
sources at hand).  Per the path-shape check of the spec, the resolved
path must consist of exactly the given segments: any other arity or
segment is a non-match. -/
def match_path (rpath : List String) (segments : List String) : Bool :=
  rpath == segments

/-- The replacement table, transcribed verbatim from
`STABILIZED_INTRINSIC_NAMES` in the source: pairs of intrinsic name and
replacement guidance. -/
def STABILIZED_INTRINSIC_NAMES : List (String × String) := [
  ("add_with_oveflow", "`overflowing_add` on integer types"),

  ("atomic_and", "`fetch_and` on std::sync::atomic types"),
  ("atomic_and_acq", "`fetch_and` on std::sync::atomic types"),
  ("atomic_and_acqrel", "`fetch_and` on std::sync::atomic types"),
  ("atomic_and_rel", "`fetch_and` on std::sync::atomic types"),
  ("atomic_and_relaxed", "`fetch_and` on std::sync::atomic types"),

  ("atomic_cxchg", "`compare_exchange` on std::sync::atomic types"),
  ("atomic_cxchg_acq", "`compare_exchange` on std::sync::atomic types"),
  ("atomic_cxchg_acqrel", "`compare_exchange` on std::sync::atomic types"),
  ("atomic_cxchg_acqrel_failrelaxed", "`compare_exchange` on std::sync::atomic types"),
  ("atomic_cxchg_failacq", "`compare_exchange` on std::sync::atomic types"),
  ("atomic_cxchg_failrelaxed", "`compare_exchange` on std::sync::atomic types"),
  ("atomic_cxchg_rel", "`compare_exchange` on std::sync::atomic types"),
  ("atomic_cxchg_relaxed", "`compare_exchange` on std::sync::atomic types"),

  ("atomic_cxchgweak", "`compare_exchange_weak` on std::sync::atomic types"),
  ("atomic_cxchgweak_acq", "`compare_exchange_weak` on std::sync::atomic types"),
  ("atomic_cxchgweak_acq_failrelaxed", "`compare_exchange_weak` on std::sync::atomic types"),
  ("atomic_cxchgweak_acqrel", "`compare_exchange_weak` on std::sync::atomic types"),
  ("atomic_cxchgweak_acqrel_failrelaxed", "`compare_exchange_weak` on std::sync::atomic types"),
  ("atomic_cxchgweak_failacq", "`compare_exchange_weak` on std::sync::atomic types"),
  ("atomic_cxchgweak_failrelaxed", "`compare_exchange_weak` on std::sync::atomic types"),
  ("atomic_cxchgweak_rel", "`compare_exchange_weak` on std::sync::atomic types"),
  ("atomic_cxchgweak_relaxed", "`compare_exchange_weak` on std::sync::atomic types"),

  ("atomic_load", "`load` on std::sync::atomic types"),
  ("atomic_load_acq", "`load` on std::sync::atomic types"),
  ("atomic_load_relaxed", "`load` on std::sync::atomic types"),

  ("atomic_nand", "`fetch_nand` on std::sync::atomic::AtomicBool"),
  ("atomic_nand_acq", "`fetch_nand` on std::sync::atomic::AtomicBool"),
  ("atomic_nand_acqrel", "`fetch_nand` on std::sync::atomic::AtomicBool"),
  ("atomic_nand_rel", "`fetch_nand` on std::sync::atomic::AtomicBool"),
  ("atomic_nand_relaxed", "`fetch_nand` on std::sync::atomic::AtomicBool"),

  ("atomic_or", "`fetch_or` on std::sync::atomic types"),
  ("atomic_or_acq", "`fetch_or` on std::sync::atomic types"),
  ("atomic_or_acqrel", "`fetch_or` on std::sync::atomic types"),
  ("atomic_or_rel", "`fetch_or` on std::sync::atomic types"),
  ("atomic_or_relaxed", "`fetch_or` on std::sync::atomic types"),

  ("atomic_store", "`store` on std::sync::atomic types"),
  ("atomic_store_rel", "`store` on std::sync::atomic types"),
  ("atomic_store_relaxed", "`store` on std::sync::atomic types"),

  ("atomic_xadd", "`fetch_add` on std::sync::atomic::AtomicBool"),
  ("atomic_xadd_acq", "`fetch_add` on std::sync::atomic::AtomicBool"),
  ("atomic_xadd_acqrel", "`fetch_add` on std::sync::atomic::AtomicBool"),
  ("atomic_xadd_rel", "`fetch_add` on std::sync::atomic::AtomicBool"),
  ("atomic_xadd_relaxed", "`fetch_add` on std::sync::atomic::AtomicBool"),

  ("atomic_xchg", "`swap` on std::sync::atomic::AtomicBool"),
  ("atomic_xchg_acq", "`swap` on std::sync::atomic::AtomicBool"),
  ("atomic_xchg_acqrel", "`swap` on std::sync::atomic::AtomicBool"),
  ("atomic_xchg_rel", "`swap` on std::sync::atomic::AtomicBool"),
  ("atomic_xchg_relaxed", "`swap` on std::sync::atomic::AtomicBool"),

  ("atomic_xor", "`fetch_xor` on std::sync::atomic::AtomicBool"),
  ("atomic_xor_acq", "`fetch_xor` on std::sync::atomic::AtomicBool"),
  ("atomic_xor_acqrel", "`fetch_xor` on std::sync::atomic::AtomicBool"),
  ("atomic_xor_rel", "`fetch_xor` on std::sync::atomic::AtomicBool"),
  ("atomic_xor_relaxed", "`fetch_xor` on std::sync::atomic::AtomicBool"),

  ("atomic_xsub", "`fetch_sub` on std::sync::atomic::AtomicBool"),
  ("atomic_xsub_acq", "`fetch_sub` on std::sync::atomic::AtomicBool"),
  ("atomic_xsub_acqrel", "`fetch_sub` on std::sync::atomic::AtomicBool"),
  ("atomic_xsub_rel", "`fetch_sub` on std::sync::atomic::AtomicBool"),
  ("atomic_xsub_relaxed", "`fetch_sub` on std::sync::atomic::AtomicBool"),

  ("mul_with_overflow", "`overflowing_mul` on integer types"),

  ("overflowing_add", "`wrapping_add` on integer types"),
  ("overflowing_mul", "`wrapping_mul` on integer types"),

  ("rotate_left", "`rotate_left` on integer types"),
  ("rotate_right", "`rotate_right` on integer types"),

  ("saturating_add", "`saturating_add` on integer types"),
  ("saturating_sub", "`saturating_sub` on integer types"),

  ("sub_with_overflow", "`overflowing_sub` on integer types"),

  ("volatile_load", "`std::ptr::read_volatile`"),
  ("volatile_store", "`std::ptr::store_volatile`"),

  ("size_of", "`std::mem::size_of`"),
  ("transmute", "`std::mem::transmute`")
]

/-- The message built by `check_expr` for a matching entry: the literal
template with the intrinsic name and the guidance substituted verbatim. -/
def stabilizedMessage (ipath : String) (stabilized_msg : String) : String :=
  "`" ++ ipath ++ "` is stabilized as " ++ stabilized_msg

/-- Translation of `check_expr`: if the expression is a call whose callee
is a path expression holding a resolved qualified path, loop over the
table and emit one diagnostic, on the span of the whole call expression,
for every entry whose name completes a matching `intrinsics` path.
Returns the list of emitted diagnostics, in table order. -/
def check_expr (expr : Expr) : List Diagnostic :=
  match expr with
  | .call (.path (QPath.resolved _ rpath) _) _ _ =>
      (STABILIZED_INTRINSIC_NAMES.filter
        (fun p => match_path rpath ["intrinsics", p.1])).map
        (fun p => span_lint STABILIZED_INTRINSICS expr.span
          (stabilizedMessage p.1 p.2))
  | _ => []

/-- The lint pass state: `declare_lint_pass!` declares a fieldless unit
struct, so the pass carries no data at all. -/
structure StabilizedIntrinsics : Type where
  unit : Unit

/-- `check_expr` as the trait method it is in the source: it receives the
pass state by mutable reference but never reads or writes it, so the
state is returned unchanged alongside the emitted diagnostics. -/
def checkExprPass (s : StabilizedIntrinsics) (expr : Expr) :
    StabilizedIntrinsics × List Diagnostic :=
  (s, check_expr expr)

/-- Modelled from the spec: the AST traversal that owns the walk (the
external visiting framework) invokes the matcher once per call
expression; a run over a program is the concatenation of the diagnostics
of each visited expression, in visit order. -/
def check_program (es : List Expr) : List Diagnostic :=
  es.flatMap check_expr

/-- An expression is a call whose resolved target is a listed intrinsic:
the callee is a path expression with resolved path
`["intrinsics", name]` for some name that is a key of the table. -/
def hasListedTarget (e : Expr) : Prop :=
  ∃ callee args span name,
    e = Expr.call callee args span ∧
    (∃ selfTy cspan,
      callee = Expr.path (QPath.resolved selfTy ["intrinsics", name]) cspan) ∧
    name ∈ STABILIZED_INTRINSIC_NAMES.map Prod.fst

/-! ## Helper lemmas -/

/-- The table keys are pairwise distinct (shared helper). -/
lemma tableKeysNodup : (STABILIZED_INTRINSIC_NAMES.map Prod.fst).Nodup := by
  decide

/-- Filtering an association list with distinct keys by equality with the
key of one of its entries yields exactly that entry. -/
lemma filter_key_eq_singleton {α β : Type} [DecidableEq α] :
    ∀ (l : List (α × β)) (a : α) (b : β),
      (l.map Prod.fst).Nodup → (a, b) ∈ l →
      l.filter (fun p => p.1 == a) = [(a, b)]
  | [], _, _, _, hmem => absurd hmem (List.not_mem_nil _)
  | (x, y) :: t, a, b, hnd, hmem => by
    rw [List.map_cons, List.nodup_cons] at hnd
    rcases List.mem_cons.mp hmem with hhead | htail
    · injection hhead with hx hy
      subst hx
      subst hy
      have hrest : t.filter (fun p => p.1 == a) = [] := by
        refine List.filter_eq_nil_iff.mpr (fun p hp hpa => ?_)
        have hpa2 : p.1 = a := beq_iff_eq.mp hpa
        have hmem2 : p.1 ∈ t.map Prod.fst := List.mem_map_of_mem Prod.fst hp
        rw [hpa2] at hmem2
        exact hnd.1 hmem2
      simp [List.filter_cons, hrest]
    · have hxa : (x == a) = false := by
        refine beq_eq_false_iff_ne.mpr (fun hxe => ?_)
        have hx1 := hnd.1
        rw [hxe] at hx1
        have hm : (a, b).1 ∈ t.map Prod.fst := List.mem_map_of_mem Prod.fst htail
        exact hx1 hm
      rw [List.filter_cons]
      simp only [hxa, cond_false]
      exact filter_key_eq_singleton t a b hnd.2 htail

/-- If a predicate on entries forces a single key, a filter of an
association list with distinct keys keeps at most one entry. -/
lemma length_filter_key_le_one {α β : Type}
    (l : List (α × β)) (pred : α × β → Bool)
    (hnd : (l.map Prod.fst).Nodup)
    (hkey : ∀ p q, pred p = true → pred q = true → p.1 = q.1) :
    (l.filter pred).length ≤ 1 := by
  have hsub : ((l.filter pred).map Prod.fst).Nodup :=
    hnd.sublist (List.Sublist.map Prod.fst (List.filter_sublist l))
  match hF : l.filter pred with
  | [] => simp
  | [p] => simp
  | p :: q :: rest =>
      have hp : pred p = true := (List.mem_filter.mp (hF ▸ List.mem_cons_self p _)).2
      have hq : pred q = true :=
        (List.mem_filter.mp (hF ▸ List.mem_cons.mpr (Or.inr (List.mem_cons_self q _)))).2
      rw [hF, List.map_cons, List.map_cons, List.nodup_cons] at hsub
      exact absurd (hkey p q hp hq)
        (fun hEq => hsub.1 (hEq ▸ List.mem_cons_self q.1 _))

/-- The filtering test used by `check_expr`, at a resolved path that
already has the `intrinsics` shape, is equality with the second segment. -/
lemma match_path_intrinsics (name : String) (p : String × String) :
    match_path ["intrinsics", name] ["intrinsics", p.1] = (p.1 == name) := by
  by_cases h : p.1 = name
  · rw [h, match_path, beq_self_eq_true, beq_self_eq_true]
  · have h1 : (p.1 == name) = false := beq_eq_false_iff_ne.mpr h
    have h2 : match_path ["intrinsics", name] ["intrinsics", p.1] = false := by
      rw [match_path]
      refine beq_eq_false_iff_ne.mpr (fun hEq => ?_)
      injection hEq with hhead htail
      injection htail with hname hnil
      exact h hname.symm
    rw [h1, h2]

/-- On a call whose callee resolves to `["intrinsics", name]` for a table
entry `(name, g)`, `check_expr` emits exactly the diagnostic for that
entry, bound to the span of the call. -/
lemma check_expr_hit (selfTy : Option Unit) (cspan : Nat)
    (args : List Expr) (span : Nat) (name g : String)
    (hmem : (name, g) ∈ STABILIZED_INTRINSIC_NAMES) :
    check_expr (Expr.call
        (Expr.path (QPath.resolved selfTy ["intrinsics", name]) cspan) args span)
      = [{ span := span, severity := "style",
           message := stabilizedMessage name g }] := by
  rw [check_expr]
  rw [List.filter_congr (fun p _ => match_path_intrinsics name p),
    filter_key_eq_singleton STABILIZED_INTRINSIC_NAMES name g tableKeysNodup hmem]
  rfl

/-- When the scrutinised expression is not a call whose callee is a path
expression carrying a resolved path, every branch of the `if_chain` in
`check_expr` falls through and nothing is emitted. -/
lemma check_expr_not_resolved :
    ∀ (e : Expr),
      (∀ selfTy rpath cspan args span,
        e ≠ Expr.call (Expr.path (QPath.resolved selfTy rpath) cspan) args span) →
      check_expr e = []
  | .other _, _ => rfl
  | .path _ _, _ => rfl
  | .call (.call _ _ _) _ _, _ => rfl
  | .call (.other _) _ _, _ => rfl
  | .call (.path QPath.typeRelative _) _ _, _ => rfl
  | .call (.path (QPath.resolved selfTy rpath) cspan) args span, h =>
      absurd rfl (h selfTy rpath cspan args span)

/-- The table loop of `check_expr` can fire for at most one entry: the
matched resolved path pins the key, and keys are distinct. -/
lemma check_expr_len_le_one : ∀ e : Expr, (check_expr e).length ≤ 1
  | .other _ => Nat.zero_le 1
  | .path _ _ => Nat.zero_le 1
  | .call (.call _ _ _) _ _ => Nat.zero_le 1
  | .call (.other _) _ _ => Nat.zero_le 1
  | .call (.path QPath.typeRelative _) _ _ => Nat.zero_le 1
  | .call (.path (QPath.resolved selfTy rpath) cspan) args span => by
      rw [check_expr, List.length_map]
      refine length_filter_key_le_one _ _ tableKeysNodup (fun p q hp hq => ?_)
      rw [match_path] at hp hq
      have hp2 := beq_iff_eq.mp hp
      have hq2 := beq_iff_eq.mp hq
      rw [hp2] at hq2
      simp only [List.cons.injEq, true_and, and_true] at hq2
      exact hq2

/-- A call expression with a listed resolved target produces exactly one
diagnostic. -/
lemma check_expr_listed_len_one (e : Expr) (he : hasListedTarget e) :
    (check_expr e).length = 1 := by
  obtain ⟨callee, args, span, name, heq, ⟨selfTy, cspan, hc⟩, hkey⟩ := he
  obtain ⟨⟨p1, p2⟩, hpmem, hpfst⟩ := List.mem_map.mp hkey
  have hp1 : p1 = name := hpfst
  subst hp1
  subst hc
  subst heq
  rw [check_expr_hit selfTy cspan args span p1 p2 hpmem]
  rfl

/-- A sample call expression with resolved callee
`["intrinsics", "atomic_load"]`, used by concrete instances below. -/
def exAtomicLoad : Expr :=
  Expr.call (Expr.path (QPath.resolved none ["intrinsics", "atomic_load"]) 0) [] 1

/-! ## Claim theorems -/

/-- C1: for every call expression examined by `check_expr`, a diagnostic
is emitted if and only if the callee is a resolved path whose target is
exactly the two-segment path `["intrinsics", name]` with `name` the key
of some table entry; any other arity, first segment, or unlisted name
yields no diagnostic. -/
theorem check_expr_emits_iff_listed (e : Expr) :
    check_expr e ≠ [] ↔ hasListedTarget e := by
  constructor
  · intro hne
    match e with
    | .other s => exact absurd rfl hne
    | .path q s => exact absurd rfl hne
    | .call (.call c a s) args span => exact absurd rfl hne
    | .call (.other s) args span => exact absurd rfl hne
    | .call (.path QPath.typeRelative s) args span => exact absurd rfl hne
    | .call (.path (QPath.resolved selfTy rpath) cspan) args span =>
        rw [check_expr] at hne
        have hfil : STABILIZED_INTRINSIC_NAMES.filter
            (fun p => match_path rpath ["intrinsics", p.1]) ≠ [] := by
          intro h0
          rw [h0] at hne
          exact hne rfl
        obtain ⟨p, hpmem⟩ := List.exists_mem_of_ne_nil _ hfil
        have hp := List.mem_filter.mp hpmem
        have hp2 := hp.2
        rw [match_path] at hp2
        have hrp : rpath = ["intrinsics", p.1] := beq_iff_eq.mp hp2
        exact ⟨_, args, span, p.1, rfl,
          ⟨selfTy, cspan, by rw [hrp]⟩,
          List.mem_map_of_mem Prod.fst hp.1⟩
  · rintro ⟨callee, args, span, name, he, ⟨selfTy, cspan, hc⟩, hkey⟩
    obtain ⟨⟨p1, p2⟩, hpmem, hpfst⟩ := List.mem_map.mp hkey
    have hp1 : p1 = name := hpfst
    subst hp1
    subst hc
    subst he
    rw [check_expr_hit selfTy cspan args span p1 p2 hpmem]
    simp

/-- Witness for C1: the two-segment `atomic_load` target does emit. -/
theorem check_expr_emits_iff_listed_witness : check_expr exAtomicLoad ≠ [] :=
  (check_expr_emits_iff_listed exAtomicLoad).mpr
    ⟨Expr.path (QPath.resolved none ["intrinsics", "atomic_load"]) 0, [], 1,
     "atomic_load", rfl, ⟨none, 0, rfl⟩, by decide⟩

/-- C2: a single call expression yields at most one diagnostic even
though the loop scans the whole table, and a program of N call
expressions that each target a listed intrinsic yields exactly N
diagnostics, one per call site. -/
theorem check_expr_at_most_one_and_n_sites :
    (∀ e : Expr, (check_expr e).length ≤ 1) ∧
    ∀ es : List Expr, (∀ e ∈ es, hasListedTarget e) →
      (check_program es).length = es.length := by
  refine ⟨check_expr_len_le_one, fun es => ?_⟩
  induction es with
  | nil => intro _; rfl
  | cons e t ih =>
      intro h
      rw [check_program, List.flatMap_cons, List.length_append]
      have h1 : (check_expr e).length = 1 :=
        check_expr_listed_len_one e (h e (List.mem_cons_self e t))
      have ht : (check_program t).length = t.length :=
        ih (fun x hx => h x (List.mem_cons_of_mem e hx))
      rw [check_program] at ht
      rw [h1, ht, List.length_cons, Nat.add_comm]

/-- Witness for C2: one listed call site yields exactly one diagnostic. -/
theorem check_expr_at_most_one_and_n_sites_witness :
    (check_program [exAtomicLoad]).length = [exAtomicLoad].length :=
  check_expr_at_most_one_and_n_sites.2 [exAtomicLoad]
    (fun e he => by
      rw [List.mem_singleton] at he
      subst he
      exact ⟨Expr.path (QPath.resolved none ["intrinsics", "atomic_load"]) 0, [], 1,
        "atomic_load", rfl, ⟨none, 0, rfl⟩, by decide⟩)

/-- C3: no two entries of `STABILIZED_INTRINSIC_NAMES` at distinct
indices share the same intrinsic-name key. -/
theorem stabilized_table_keys_distinct (i j : Nat)
    (hi : i < STABILIZED_INTRINSIC_NAMES.length)
    (hj : j < STABILIZED_INTRINSIC_NAMES.length)
    (hij : i ≠ j) :
    (STABILIZED_INTRINSIC_NAMES.get ⟨i, hi⟩).1
      ≠ (STABILIZED_INTRINSIC_NAMES.get ⟨j, hj⟩).1 := by
  intro hEq
  apply hij
  have hmi : i < (STABILIZED_INTRINSIC_NAMES.map Prod.fst).length := by
    rw [List.length_map]
    exact hi
  have hmj : j < (STABILIZED_INTRINSIC_NAMES.map Prod.fst).length := by
    rw [List.length_map]
    exact hj
  refine (@List.Nodup.getElem_inj_iff String
    (STABILIZED_INTRINSIC_NAMES.map Prod.fst) tableKeysNodup i hmi j hmj).mp ?_
  simp only [List.getElem_map]
  simpa using hEq

/-- Witness for C3 at the first two table entries. -/
theorem stabilized_table_keys_distinct_witness :
    (STABILIZED_INTRINSIC_NAMES.get ⟨0, by decide⟩).1
      ≠ (STABILIZED_INTRINSIC_NAMES.get ⟨1, by decide⟩).1 :=
  stabilized_table_keys_distinct 0 1 (by decide) (by decide) (by decide)

/-- C4: for every matching call expression, the emitted diagnostic is the
one whose message is exactly the backquoted name followed by the literal
text and the guidance verbatim, bound to the span of the whole call. -/
theorem check_expr_message_and_span (selfTy : Option Unit) (cspan : Nat)
    (args : List Expr) (span : Nat) (name g : String)
    (hmem : (name, g) ∈ STABILIZED_INTRINSIC_NAMES) :
    check_expr (Expr.call (Expr.path (QPath.resolved selfTy ["intrinsics", name]) cspan)
        args span)
      = [{ span := (Expr.call (Expr.path (QPath.resolved selfTy
             ["intrinsics", name]) cspan) args span).span,
           severity := "style",
           message := "`" ++ name ++ "` is stabilized as " ++ g }] :=
  check_expr_hit selfTy cspan args span name g hmem

/-- Witness for C4 at the `size_of` entry. -/
theorem check_expr_message_and_span_witness :
    check_expr (Expr.call (Expr.path (QPath.resolved none ["intrinsics", "size_of"]) 0)
        [] 7)
      = [{ span := 7, severity := "style",
           message := "`size_of` is stabilized as `std::mem::size_of`" }] :=
  check_expr_message_and_span none 0 [] 7 "size_of" "`std::mem::size_of`" (by decide)

/-- C5: a call expression resolving to `["intrinsics", "atomic_load"]`
produces the diagnostic whose message is exactly the scenario-A text. -/
theorem scenario_atomic_load_message :
    check_expr exAtomicLoad
      = [{ span := 1, severity := "style",
           message := "`atomic_load` is stabilized as `load` on std::sync::atomic types" }] := by
  decide

/-- C6: a call expression whose callee is not a resolved path expression
produces no diagnostic, regardless of its form. -/
theorem check_expr_unresolved_no_diag (callee : Expr) (args : List Expr) (span : Nat)
    (h : ∀ selfTy rpath cspan,
        callee ≠ Expr.path (QPath.resolved selfTy rpath) cspan) :
    check_expr (Expr.call callee args span) = [] := by
  refine check_expr_not_resolved _ (fun selfTy rpath cspan args2 span2 hEq => ?_)
  injection hEq with h1 h2 h3
  exact absurd h1 (h selfTy rpath cspan)

/-- Witness for C6: a call through a non-path callee is silent. -/
theorem check_expr_unresolved_no_diag_witness :
    check_expr (Expr.call (Expr.other 0) [] 1) = [] :=
  check_expr_unresolved_no_diag (Expr.other 0) [] 1
    (fun _ _ _ hEq => Expr.noConfusion hEq)

/-- C7: the pass carries no state: invoking the checker twice on the
same call expression leaves the pass state unchanged and returns the
same diagnostics (same spans and messages) both times. -/
theorem checkExprPass_idempotent (s : StabilizedIntrinsics) (e : Expr) :
    (checkExprPass s e).1 = s ∧
    (checkExprPass (checkExprPass s e).1 e).2 = (checkExprPass s e).2 :=
  ⟨rfl, rfl⟩

/-- C8: `check_expr` is a total function whose only outcomes are the
empty answer or a single well-formed diagnostic on the span of the
examined expression; every non-match branch is silent. -/
theorem check_expr_total_outcomes (e : Expr) :
    check_expr e = [] ∨
    ∃ name g, (name, g) ∈ STABILIZED_INTRINSIC_NAMES ∧
      check_expr e = [{ span := e.span, severity := "style",
                        message := stabilizedMessage name g }] := by
  match e with
  | .other s => exact Or.inl rfl
  | .path q s => exact Or.inl rfl
  | .call (.call c a s) args span => exact Or.inl rfl
  | .call (.other s) args span => exact Or.inl rfl
  | .call (.path QPath.typeRelative s) args span => exact Or.inl rfl
  | .call (.path (QPath.resolved selfTy rpath) cspan) args span =>
      cases hF : STABILIZED_INTRINSIC_NAMES.filter
          (fun p => match_path rpath ["intrinsics", p.1]) with
      | nil =>
          refine Or.inl ?_
          rw [check_expr, hF]
          rfl
      | cons p rest =>
          obtain ⟨p1, p2⟩ := p
          have hmem0 : (p1, p2) ∈ STABILIZED_INTRINSIC_NAMES.filter
              (fun p => match_path rpath ["intrinsics", p.1]) := by
            rw [hF]
            exact List.mem_cons_self _ _
          have hp := List.mem_filter.mp hmem0
          have hp2 := hp.2
          rw [match_path] at hp2
          have hrp : rpath = ["intrinsics", p1] := beq_iff_eq.mp hp2
          subst hrp
          exact Or.inr ⟨p1, p2, hp.1,
            check_expr_hit selfTy cspan args span p1 p2 hp.1⟩

/-- C9: every diagnostic emitted by `check_expr` goes through the
`STABILIZED_INTRINSICS` lint and carries its fixed `style` category as
severity. -/
theorem check_expr_severity_style (e : Expr) (d : Diagnostic)
    (h : d ∈ check_expr e) :
    d.severity = STABILIZED_INTRINSICS.category ∧
    STABILIZED_INTRINSICS.category = "style" := by
  refine ⟨?_, rfl⟩
  match e with
  | .other s => exact absurd h (List.not_mem_nil d)
  | .path q s => exact absurd h (List.not_mem_nil d)
  | .call (.call c a s) args span => exact absurd h (List.not_mem_nil d)
  | .call (.other s) args span => exact absurd h (List.not_mem_nil d)
  | .call (.path QPath.typeRelative s) args span => exact absurd h (List.not_mem_nil d)
  | .call (.path (QPath.resolved selfTy rpath) cspan) args span =>
      rw [check_expr] at h
      obtain ⟨p, hpmem, hpd⟩ := List.mem_map.mp h
      rw [← hpd]
      rfl

/-- Witness for C9 on the `atomic_load` diagnostic. -/
theorem check_expr_severity_style_witness :
    ({ span := 1, severity := "style",
       message := "`atomic_load` is stabilized as `load` on std::sync::atomic types" } :
        Diagnostic).severity = STABILIZED_INTRINSICS.category ∧
    STABILIZED_INTRINSICS.category = "style" :=
  check_expr_severity_style exAtomicLoad
    { span := 1, severity := "style",
      message := "`atomic_load` is stabilized as `load` on std::sync::atomic types" }
    (by decide)

/-- C10: the table contains the misspelled key `add_with_oveflow` and no
key `add_with_overflow`; the conventionally spelled target is silent
while the misspelled one emits the `overflowing_add` guidance. -/
theorem misspelled_add_with_oveflow :
    ("add_with_oveflow", "`overflowing_add` on integer types") ∈ STABILIZED_INTRINSIC_NAMES ∧
    "add_with_overflow" ∉ STABILIZED_INTRINSIC_NAMES.map Prod.fst ∧
    check_expr (Expr.call (Expr.path (QPath.resolved none
        ["intrinsics", "add_with_overflow"]) 0) [] 1) = [] ∧
    check_expr (Expr.call (Expr.path (QPath.resolved none
        ["intrinsics", "add_with_oveflow"]) 0) [] 2)
      = [{ span := 2, severity := "style",
           message := "`add_with_oveflow` is stabilized as `overflowing_add` on integer types" }] :=
  ⟨by decide, by decide, by decide, by decide⟩
